import Mathlib

/-!
Verification development for the kgb function-spy engine.

The definitions below are a shallow embedding of the Python sources:

* `kgb/calls.py` — `SpyCall` and its query predicates;
* `kgb/spies.py` — `FunctionSpy.__call__`, the recorded-call normalization
  performed by the generated forwarding function, the spy-level query
  predicates and `reset_calls`;
* `kgb/signature.py` — the signature model (`FunctionSigPy3`) and
  `BaseFunctionSig.is_compatible_with`;
* `kgb/ops.py` — `BaseMatchingSpyOperation` and `SpyOpMatchInOrder`;
* `kgb/utils.py` — `format_spy_kwargs` (used by diagnostics).

Python values are modelled by the inductive `PyVal`; Python dicts by
association lists in insertion order whose lookup takes the most recent
binding (`dget`), mirroring `dict` construction and `dict.update`.
-/

namespace Kgb

/-- A Python value, as far as the spied-on scenarios need: `None`, integers,
strings and opaque object instances (identified by a tag). -/
inductive PyVal where
  | none
  | int (n : Int)
  | str (s : String)
  | inst (tag : Nat)
  deriving DecidableEq, Repr

/-- A Python dict with string keys, in insertion order. -/
abbrev PyDict := List (String × PyVal)

/-- Dict lookup: the most recently inserted binding for a key wins, exactly
as for a Python `dict` built left to right (`dict(pairs)` / `update`). -/
def dget : PyDict → String → Option PyVal
  | [], _ => Option.none
  | kv :: rest, k => (dget rest k) <|> (if kv.1 = k then some kv.2 else Option.none)

/-- The three function types of `BaseFunctionSig` (`TYPE_FUNCTION`,
`TYPE_BOUND_METHOD`, `TYPE_UNBOUND_METHOD`). -/
inductive FuncType where
  | function
  | boundMethod
  | unboundMethod
  deriving DecidableEq, Repr

/-- Whether the function type is a bound or unbound method, the test
`func_type in (TYPE_BOUND_METHOD, TYPE_UNBOUND_METHOD)` of the sources. -/
def FuncType.isMethod : FuncType → Bool
  | .function => false
  | .boundMethod => true
  | .unboundMethod => true

/-- The signature state computed by `FunctionSigPy3.__init__`:

* `argNames` models `arg_names` — the positional-or-keyword parameters
  without a default plus the positional-only parameters, in declaration
  order (for methods the receiver is its first element);
* `dParams` models the defaulted positional-or-keyword parameters together
  with their default values (their names form the front of `kwarg_names`);
* `kwOnlyParams` models the keyword-only parameters with their optional
  defaults (their names form the rest of `kwarg_names`);
* `hasVarArgs` / `hasVarKwargs` model the truthiness of `args_param_name`
  and `kwargs_param_name`.

Signatures with a defaulted positional-only parameter are not representable
here; none of the verified scenarios involve one. -/
structure FunctionSig where
  funcType : FuncType
  argNames : List String
  dParams : List (String × PyVal)
  kwOnlyParams : List (String × Option PyVal)
  hasVarArgs : Bool
  hasVarKwargs : Bool
  deriving DecidableEq, Repr

/-- The names of the defaulted positional-or-keyword parameters. -/
def FunctionSig.dNames (sig : FunctionSig) : List String :=
  sig.dParams.map (·.1)

/-- `kwarg_names` of `FunctionSigPy3`: defaulted positional-or-keyword
parameters followed by the keyword-only parameters. -/
def FunctionSig.kwargNames (sig : FunctionSig) : List String :=
  sig.dNames ++ sig.kwOnlyParams.map (·.1)

/-- `all_arg_names` of `FunctionSigPy3`: every positional parameter name in
declaration order (Python syntax puts the defaulted ones last). -/
def FunctionSig.allArgNames (sig : FunctionSig) : List String :=
  sig.argNames ++ sig.dNames

/-- One recorded call (`SpyCall.__init__`): the positional and keyword
arguments as received by `FunctionSpy.__call__` (receiver already stripped),
plus `return_value` (initially `None`) and `exception` (initially `None`). -/
structure SpyCall where
  args : List PyVal
  kwargs : PyDict
  return_value : PyVal := PyVal.none
  exception : Option PyVal := Option.none
  deriving DecidableEq, Repr

/-- `pos_args` as computed inside `SpyCall.called_with`: `arg_names`, with
the receiver dropped for bound and unbound methods. -/
def FunctionSig.posArgNames (sig : FunctionSig) : List String :=
  if sig.funcType.isMethod then sig.argNames.tail else sig.argNames

/-- The `all_args` dict of `SpyCall.called_with`:
`dict(zip(pos_args, self.args))` updated with `self.kwargs`. -/
def SpyCall.canonicalArgs (call : SpyCall) (sig : FunctionSig) : PyDict :=
  sig.posArgNames.zip call.args ++ call.kwargs

/-- `SpyCall.called_with` from `kgb/calls.py`: the expected positional
arguments must be a prefix of the recorded ones, and every expected keyword
pair must occur, with an equal value, in the canonical argument dict. -/
def SpyCall.called_with (call : SpyCall) (sig : FunctionSig)
    (args : List PyVal) (kwargs : PyDict) : Bool :=
  if args.length > call.args.length then false
  else if call.args.take args.length ≠ args then false
  else kwargs.all (fun kv => dget (call.canonicalArgs sig) kv.1 == some kv.2)

/-- `SpyCall.returned`: equality comparison against the stored
`return_value`, regardless of whether the call completed normally. -/
def SpyCall.returned (call : SpyCall) (value : PyVal) : Bool :=
  call.return_value == value

/-!
The forwarding function generated by `FunctionSpy._build_proxy_func` has the
same parameters as the spied function (with the original default values, via
the original `__defaults__`), and forwards every `arg_names` entry
positionally, every `kwarg_names` entry as a keyword, and then `*args` /
`**kwargs` (`BaseFunctionSig.format_forward_call_args`).  The next
definitions model the Python argument binding performed when the spied
function is called, and the positional/keyword shape the spy then receives.
-/

/-- The positional parameter list of the spied function: the no-default
names, then the defaulted names with their default values. -/
def FunctionSig.posParams (sig : FunctionSig) : List (String × Option PyVal) :=
  sig.argNames.map (fun n => (n, Option.none)) ++ sig.dParams.map (fun p => (p.1, some p.2))

/-- Python binding of one positional parameter (at index `i`) against a call
site with positional list `pos` and keyword dict `kw`: a positional value if
one reaches the slot (a keyword for the same name is then a `TypeError`),
otherwise the keyword value, otherwise the default.  `Option.none` is a
`TypeError`. -/
def bindPosParam (pos : List PyVal) (kw : PyDict) (i : Nat) (name : String)
    (dflt : Option PyVal) : Option PyVal :=
  if i < pos.length then
    if (dget kw name).isSome then Option.none else pos.get? i
  else
    (dget kw name) <|> dflt

/-- Bind every positional parameter, the first having index `i`. -/
def bindPosParams (pos : List PyVal) (kw : PyDict) :
    List (String × Option PyVal) → Nat → Option (List PyVal)
  | [], _ => some []
  | p :: rest, i =>
    match bindPosParam pos kw i p.1 p.2, bindPosParams pos kw rest (i + 1) with
    | some v, some vs => some (v :: vs)
    | _, _ => Option.none

/-- Bind every keyword-only parameter: keyword value, otherwise default. -/
def bindKwOnlyParams (kw : PyDict) :
    List (String × Option PyVal) → Option (List PyVal)
  | [] => some []
  | p :: rest =>
    match (dget kw p.1) <|> p.2, bindKwOnlyParams kw rest with
    | some v, some vs => some (v :: vs)
    | _, _ => Option.none

/-- What `FunctionSpy.__call__` receives from the forwarding call: the full
positional tuple (receiver included, `arg_names` values then the `*args`
overflow) and the keyword dict (every `kwarg_names` entry, then the
`**kwargs` leftovers). -/
structure BoundCall where
  fullArgs : List PyVal
  kwargs : PyDict
  deriving DecidableEq, Repr

/-- Bind a call site against the spied function's signature, producing the
shape `FunctionSpy.__call__` receives, or `Option.none` when Python would
raise a `TypeError` before the spy runs (excess positionals without `*args`,
unknown keywords without `**kwargs`, missing or duplicated parameters). -/
def bindCall (sig : FunctionSig) (pos : List PyVal) (kw : PyDict) :
    Option BoundCall :=
  let pps := sig.posParams
  let extra := pos.drop pps.length
  match bindPosParams pos kw pps 0, bindKwOnlyParams kw sig.kwOnlyParams with
  | some posVals, some kwOnlyVals =>
    if extra.length ≠ 0 ∧ sig.hasVarArgs = false then Option.none
    else
      let known := pps.map (·.1) ++ sig.kwOnlyParams.map (·.1)
      let unknown := kw.filter (fun kv => !(known.contains kv.1))
      if unknown ≠ [] ∧ sig.hasVarKwargs = false then Option.none
      else some {
        fullArgs := posVals.take sig.argNames.length ++ extra,
        kwargs := sig.dNames.zip (posVals.drop sig.argNames.length)
          ++ (sig.kwOnlyParams.map (·.1)).zip kwOnlyVals
          ++ unknown }
  | _, _ => Option.none

/-- `record_args` of `FunctionSpy.__call__`: the receiver is stripped from
the positional tuple for bound and unbound methods. -/
def FunctionSig.recordArgs (sig : FunctionSig) (bc : BoundCall) : List PyVal :=
  if sig.funcType.isMethod then bc.fullArgs.tail else bc.fullArgs

/-- The `SpyCall` appended by `FunctionSpy.__call__` before dispatching. -/
def FunctionSig.mkSpyCall (sig : FunctionSig) (bc : BoundCall) : SpyCall :=
  { args := sig.recordArgs bc, kwargs := bc.kwargs }

/-- A call record producible by the interception pipeline for `sig`: some
call site bound successfully and was recorded with these args and kwargs. -/
def RecordedCall (sig : FunctionSig) (call : SpyCall) : Prop :=
  ∃ pos kw bc, bindCall sig pos kw = some bc ∧
    call.args = sig.recordArgs bc ∧ call.kwargs = bc.kwargs

/-- The implementation a spy dispatches to (a `call_fake` or the cloned
original): from the full positional/keyword shape to a return value or a
raised exception object. -/
abbrev PyFunc := List PyVal → PyDict → Except PyVal PyVal

/-- The spy state relevant to the verified claims: the signature, the
dispatch target `func` (`Option.none` models `call_original=False` with no
fake), the recorded state stored on the function (`calls`, `called`,
`last_call`), and surrounding identity that must survive `reset_calls`. -/
structure FunctionSpy where
  sig : FunctionSig
  func : Option PyFunc
  calls : List SpyCall := []
  called : Bool := false
  lastCall : Option SpyCall := Option.none
  funcName : String
  registered : Bool := true
  patchedCode : Nat := 0

/-- `FunctionSpy.__call__` composed with the generated forwarding call: bind
the call site, append the record, dispatch, and store the result or the
exception on the record.  Returns the new state and the outcome delivered to
the caller; `Option.none` when binding fails before the spy runs. -/
def FunctionSpy.invoke (spy : FunctionSpy) (pos : List PyVal) (kw : PyDict) :
    Option (FunctionSpy × Except PyVal PyVal) :=
  match bindCall spy.sig pos kw with
  | Option.none => Option.none
  | some bc =>
    let call0 := spy.sig.mkSpyCall bc
    match spy.func with
    | Option.none =>
      some ({ spy with
                calls := spy.calls ++ [call0]
                called := true
                lastCall := some call0 }, Except.ok PyVal.none)
    | some f =>
      match f bc.fullArgs bc.kwargs with
      | Except.error e =>
        let c := { call0 with exception := some e }
        some ({ spy with
                  calls := spy.calls ++ [c]
                  called := true
                  lastCall := some c }, Except.error e)
      | Except.ok v =>
        let c := { call0 with return_value := v }
        some ({ spy with
                  calls := spy.calls ++ [c]
                  called := true
                  lastCall := some c }, Except.ok v)

/-- `FunctionSpy.called_with`: true when at least one recorded call matches. -/
def FunctionSpy.called_with (spy : FunctionSpy) (args : List PyVal)
    (kwargs : PyDict) : Bool :=
  spy.calls.any (fun c => c.called_with spy.sig args kwargs)

/-- `FunctionSpy.last_called_with`. -/
def FunctionSpy.last_called_with (spy : FunctionSpy) (args : List PyVal)
    (kwargs : PyDict) : Bool :=
  match spy.lastCall with
  | Option.none => false
  | some c => c.called_with spy.sig args kwargs

/-- `FunctionSpy.returned`: some recorded call returned the value. -/
def FunctionSpy.returned (spy : FunctionSpy) (value : PyVal) : Bool :=
  spy.calls.any (fun c => c.returned value)

/-- `FunctionSpy.last_returned`. -/
def FunctionSpy.last_returned (spy : FunctionSpy) (value : PyVal) : Bool :=
  match spy.lastCall with
  | Option.none => false
  | some c => c.returned value

/-- `FunctionSpy.reset_calls`: clear the recorded state. -/
def FunctionSpy.reset_calls (spy : FunctionSpy) : FunctionSpy :=
  { spy with
      calls := []
      called := false
      lastCall := Option.none }

/-!
Diagnostics rendering, from `kgb/utils.py` and `SpyCall.__repr__`.
-/

/-- Python `repr` for the modelled values. -/
def PyVal.pyRepr : PyVal → String
  | PyVal.none => "None"
  | PyVal.int n => toString n
  | PyVal.str s => "\x27" ++ s ++ "\x27"
  | PyVal.inst tag => "<instance " ++ toString tag ++ ">"

/-- Python `repr` of a tuple of values (singleton tuples carry a trailing
comma). -/
def pyReprTuple (vals : List PyVal) : String :=
  match vals with
  | [v] => "(" ++ v.pyRepr ++ ",)"
  | _ => "(" ++ String.intercalate ", " (vals.map PyVal.pyRepr) ++ ")"

/-- Insert one pair into a key-sorted association list. -/
def insertByKey (kv : String × PyVal) : PyDict → PyDict
  | [] => [kv]
  | x :: xs => if kv.1 ≤ x.1 then kv :: x :: xs else x :: insertByKey kv xs

/-- Sort an association list by key. -/
def sortByKey (d : PyDict) : PyDict :=
  d.foldr insertByKey []

/-- `format_spy_kwargs` from `kgb/utils.py`: the keyword dict rendered with
its keys in sorted order. -/
def format_spy_kwargs (kwargs : PyDict) : String :=
  "\x7b" ++ String.intercalate ", "
    ((sortByKey kwargs).map
      (fun kv => "\x27" ++ kv.1 ++ "\x27: " ++ kv.2.pyRepr)) ++ "\x7d"

/-- `SpyCall.__repr__` from `kgb/calls.py`. -/
def SpyCall.pyRepr (call : SpyCall) : String :=
  "<SpyCall(args=" ++ pyReprTuple call.args ++
  ", kwargs=" ++ format_spy_kwargs call.kwargs ++
  ", returned=" ++ call.return_value.pyRepr ++
  ", raised=" ++ (match call.exception with
                  | Option.none => "None"
                  | some e => e.pyRepr) ++ ")>"

/-!
The matching operations of `kgb/ops.py`.  `call_fake` / nested `op` entries
of a call match configuration are abstracted to a flag, since only the
selection and validation semantics are verified, not the dispatched
implementations themselves.
-/

/-- One call match configuration of `BaseMatchingSpyOperation` (a dict with
optional `args`, `kwargs`, `call_fake`/`op` and `call_original` keys). -/
structure CallMatchConfig where
  args : List PyVal := []
  kwargs : PyDict := []
  hasCallFake : Bool := false
  callOriginal : Bool := true
  deriving DecidableEq, Repr

/-- `BaseMatchingSpyOperation.validate_call`, which delegates to
`SpyAgency.assertSpyCalledWith` on the last call: the assertion passes
exactly when the (non-strict) `SpyCall.called_with` matches. -/
def validate_call (sig : FunctionSig) (lastCall : SpyCall)
    (cfg : CallMatchConfig) : Bool :=
  lastCall.called_with sig cfg.args cfg.kwargs

/-- What a call to `BaseMatchingSpyOperation.handle_call` does, as seen by
the caller of the spied function. -/
inductive OpOutcome where
  /-- `get_call_match_config` raised `UnexpectedCallError` with this
  message. -/
  | unexpectedCall (msg : String)
  /-- `validate_call` raised an `AssertionError` (mismatched arguments). -/
  | assertionFailed
  /-- The call was accepted and dispatch proceeds per the configuration. -/
  | dispatched (cfg : CallMatchConfig)
  deriving DecidableEq, Repr

/-- The state of a `SpyOpMatchInOrder`: the configured expectations
(`self._calls`), the cursor (`self._next`) and the spied function's name
(used in the overflow message). -/
structure SpyOpMatchInOrder where
  spyName : String
  calls : List CallMatchConfig
  next : Nat := 0
  deriving DecidableEq, Repr

/-- The `UnexpectedCallError` message raised by
`SpyOpMatchInOrder.get_call_match_config` on overflow. -/
def SpyOpMatchInOrder.unexpectedMsg (op : SpyOpMatchInOrder)
    (spyCall : SpyCall) : String :=
  op.spyName ++ " was called " ++ toString (op.next + 1) ++
  " time(s), but only " ++ toString op.calls.length ++
  " call(s) were expected. Latest call: " ++ spyCall.pyRepr

/-- `SpyOpMatchInOrder.get_call_match_config` followed by
`BaseMatchingSpyOperation.handle_call`'s validation step: on overflow the
`UnexpectedCallError` is raised before the cursor moves; otherwise the
cursor is advanced and only then is the call validated against the selected
configuration. -/
def SpyOpMatchInOrder.handle_call (op : SpyOpMatchInOrder)
    (sig : FunctionSig) (spyCall : SpyCall) :
    SpyOpMatchInOrder × OpOutcome :=
  match op.calls[op.next]? with
  | Option.none => (op, OpOutcome.unexpectedCall (op.unexpectedMsg spyCall))
  | some cfg =>
    let op' := { op with next := op.next + 1 }
    if validate_call sig spyCall cfg then (op', OpOutcome.dispatched cfg)
    else (op', OpOutcome.assertionFailed)

/-- Dispatch a sequence of calls through a `SpyOpMatchInOrder`, collecting
each call's outcome. -/
def SpyOpMatchInOrder.run (op : SpyOpMatchInOrder) (sig : FunctionSig) :
    List SpyCall → SpyOpMatchInOrder × List OpOutcome
  | [] => (op, [])
  | c :: cs =>
    let r := op.handle_call sig c
    let rest := r.1.run sig cs
    (rest.1, r.2 :: rest.2)

/-!
`BaseFunctionSig.is_compatible_with` from `kgb/signature.py`.
-/

/-- `is_compatible_with`: whether `other` (the candidate `call_fake`) is an
acceptable substitute for `src` (the spied function's signature). -/
def FunctionSig.is_compatible_with (src other : FunctionSig) : Bool :=
  if other.hasVarArgs && other.hasVarKwargs then true
  else if (src.hasVarArgs && !other.hasVarArgs) ||
          (src.hasVarKwargs && !other.hasVarKwargs) then false
  else
    let source_args := if src.funcType.isMethod then src.argNames.tail
                       else src.argNames
    let compat_args := if src.funcType.isMethod then other.argNames.tail
                       else other.argNames
    if (source_args.length != compat_args.length) &&
       ((decide (source_args.length < compat_args.length) &&
         !src.hasVarArgs &&
         !(source_args.all (fun a => other.kwargNames.contains a))) ||
        (decide (source_args.length > compat_args.length) &&
         !other.hasVarArgs)) then false
    else if !(src.kwargNames.all (fun a => other.allArgNames.contains a)) &&
            !other.hasVarKwargs then false
    else true

/-!
The specification's view of call matching (§4.1 and Algorithm 2 of the
spec).  The spec's Target Descriptor keeps a single ordered list of
positional-or-keyword parameter names, so its `bind` zips the actual
positional arguments against all of `allArgNames` (receiver dropped),
whereas the code zips against `arg_names` only.  The definitions below
follow the spec's words and are compared against the code.
-/

/-- The canonical map of the spec's `bind`: zip the actual positionals
against every positional-or-keyword name (receiver dropped for methods),
then overlay the actual keywords. -/
def SpyCall.specCanonicalArgs (call : SpyCall) (sig : FunctionSig) : PyDict :=
  (if sig.funcType.isMethod then sig.allArgNames.tail
   else sig.allArgNames).zip call.args ++ call.kwargs

/-- Algorithm 2 of the spec, non-strict form: expected positionals are a
prefix of the actuals, and every expected keyword pair occurs with an equal
value in the spec's canonical map. -/
def specCalledWith (call : SpyCall) (sig : FunctionSig)
    (args : List PyVal) (kwargs : PyDict) : Bool :=
  decide (args.length ≤ call.args.length) &&
  (call.args.take args.length == args) &&
  kwargs.all (fun kv => dget (call.specCanonicalArgs sig) kv.1 == some kv.2)

/-!
Lemmas about dict lookup and the binder, leading to the equivalence of the
code's `called_with` with the spec's Algorithm 2 on recorded calls.
-/

theorem dget_append (xs ys : PyDict) (k : String) :
    dget (xs ++ ys) k = (dget ys k <|> dget xs k) := by
  induction xs with
  | nil => simp [dget]
  | cons kv xs ih =>
    show (dget (xs ++ ys) k <|> _) = _
    rw [ih]
    cases dget ys k <;> simp [dget]

theorem dget_zip_isSome {ns : List String} {vs : List PyVal} {n : String}
    (hn : n ∈ ns) (hl : ns.length ≤ vs.length) :
    (dget (ns.zip vs) n).isSome := by
  induction ns generalizing vs with
  | nil => cases hn
  | cons m ms ih =>
    cases vs with
    | nil => simp at hl
    | cons v vs =>
      rw [List.zip_cons_cons]
      show (dget (ms.zip vs) n <|> _).isSome = true
      rcases List.mem_cons.mp hn with h | h
      · cases h2 : dget (ms.zip vs) n <;> simp [h, h2]
      · have := ih h (by simpa using Nat.le_of_succ_le_succ hl)
        cases h2 : dget (ms.zip vs) n
        · rw [h2] at this; simp at this
        · simp [h2]

theorem dget_zip_cov_aux {K : PyDict} {k : String} (hK : dget K k = Option.none) :
    ∀ (ns : List String) (A : List PyVal),
      (∀ n ∈ ns, (dget K n).isSome) → dget (ns.zip A) k = Option.none := by
  intro ns
  induction ns with
  | nil => intro A _; simp [dget]
  | cons m ms ih =>
    intro A hcov
    cases A with
    | nil => simp [dget]
    | cons a as =>
      rw [List.zip_cons_cons]
      show (dget (ms.zip as) k <|> _) = _
      rw [ih as (fun n hn => hcov n (List.mem_cons_of_mem m hn))]
      by_cases hmk : m = k
      · subst hmk
        have := hcov m (List.mem_cons_self m ms)
        rw [hK] at this
        simp at this
      · simp [hmk]

theorem dget_zip_append_covered {ns₂ : List String} {K : PyDict}
    (hcov : ∀ n ∈ ns₂, (dget K n).isSome) (ns₁ : List String)
    (A : List PyVal) (k : String) :
    dget ((ns₁ ++ ns₂).zip A ++ K) k = dget (ns₁.zip A ++ K) k := by
  induction ns₁ generalizing A with
  | nil =>
    cases hK : dget K k with
    | some v => rw [dget_append, dget_append, hK, Option.some_orElse,
                    Option.some_orElse]
    | none =>
      rw [dget_append, dget_append, hK, Option.none_orElse, Option.none_orElse,
          List.nil_append, List.zip_nil_left]
      exact dget_zip_cov_aux hK ns₂ A hcov
  | cons m ms ih =>
    cases A with
    | nil => simp
    | cons a as =>
      rw [List.cons_append, List.zip_cons_cons, List.zip_cons_cons,
          List.cons_append, List.cons_append]
      show (dget ((ms ++ ns₂).zip as ++ K) k <|> _)
        = (dget (ms.zip as ++ K) k <|> _)
      rw [ih as]

theorem orElse_isSome_right {α : Type} {a b : Option α} (h : b.isSome) :
    (a <|> b).isSome := by
  cases a <;> simp_all

theorem bindPosParams_length {pos : List PyVal} {kw : PyDict}
    {ps : List (String × Option PyVal)} {i : Nat} {vs : List PyVal}
    (h : bindPosParams pos kw ps i = some vs) : vs.length = ps.length := by
  induction ps generalizing i vs with
  | nil =>
    simp only [bindPosParams, Option.some.injEq] at h
    subst h
    rfl
  | cons p ps ih =>
    rw [bindPosParams] at h
    split at h
    · cases h
      simp only [List.length_cons]
      exact congrArg (· + 1) (ih (by assumption))
    · exact absurd h (by simp)

theorem bindCall_kwargs_covered {sig : FunctionSig} {pos : List PyVal}
    {kw : PyDict} {bc : BoundCall} (h : bindCall sig pos kw = some bc) :
    ∀ n ∈ sig.dNames, (dget bc.kwargs n).isSome := by
  intro n hn
  simp only [bindCall] at h
  split at h
  case h_2 => exact absurd h (by simp)
  case h_1 posVals kwOnlyVals h1 h2 =>
    split at h
    · exact absurd h (by simp)
    · split at h
      · exact absurd h (by simp)
      · cases h
        have hlen : sig.dNames.length ≤ (posVals.drop sig.argNames.length).length := by
          have hv := bindPosParams_length h1
          have hpp : sig.posParams.length
              = sig.argNames.length + sig.dNames.length := by
            simp [FunctionSig.posParams, FunctionSig.dNames]
          simp [hv, hpp]
        have hz : (dget (sig.dNames.zip (posVals.drop sig.argNames.length)) n).isSome :=
          dget_zip_isSome hn hlen
        simp only [List.append_assoc]
        rw [dget_append]
        cases h3 : dget (sig.dNames.zip (posVals.drop sig.argNames.length)) n
        · rw [h3] at hz; simp at hz
        · exact orElse_isSome_right rfl

theorem list_all_of_eq {α : Type} {p q : α → Bool} (l : List α)
    (h : ∀ a ∈ l, p a = q a) : l.all p = l.all q := by
  induction l with
  | nil => rfl
  | cons a l ih =>
    simp only [List.all_cons]
    rw [h a (List.mem_cons_self a l),
        ih (fun b hb => h b (List.mem_cons_of_mem a hb))]

/-- On well-formed signatures, for any call whose keyword dict covers every
defaulted parameter name (as every recorded call's does), the code's
canonical dict and the spec's canonical dict agree on every lookup. -/
theorem canonicalArgs_dget_eq_spec {sig : FunctionSig}
    (hwf : sig.funcType.isMethod = true → sig.argNames ≠ []) (c : SpyCall)
    (hcov : ∀ n ∈ sig.dNames, (dget c.kwargs n).isSome) (k : String) :
    dget (c.canonicalArgs sig) k = dget (c.specCanonicalArgs sig) k := by
  have hnames : (if sig.funcType.isMethod then sig.allArgNames.tail
                 else sig.allArgNames) = sig.posArgNames ++ sig.dNames := by
    unfold FunctionSig.allArgNames FunctionSig.posArgNames
    cases hm : sig.funcType.isMethod with
    | false => simp
    | true =>
      cases hA : sig.argNames with
      | nil => exact absurd hA (hwf hm)
      | cons a t => simp
  unfold SpyCall.canonicalArgs SpyCall.specCanonicalArgs
  rw [hnames]
  exact (dget_zip_append_covered hcov sig.posArgNames c.args k).symm

/-- On well-formed signatures, the code's `SpyCall.called_with` coincides
with the spec's Algorithm 2 for any call whose keyword dict covers every
defaulted parameter name. -/
theorem called_with_eq_spec {sig : FunctionSig}
    (hwf : sig.funcType.isMethod = true → sig.argNames ≠ []) (c : SpyCall)
    (hcov : ∀ n ∈ sig.dNames, (dget c.kwargs n).isSome)
    (E : List PyVal) (M : PyDict) :
    c.called_with sig E M = specCalledWith c sig E M := by
  unfold SpyCall.called_with specCalledWith
  by_cases h1 : E.length > c.args.length
  · simp [h1, Nat.not_le.mpr h1]
  · by_cases h2 : c.args.take E.length = E
    · have hall : M.all (fun kv => dget (c.canonicalArgs sig) kv.1 == some kv.2)
          = M.all (fun kv => dget (c.specCanonicalArgs sig) kv.1 == some kv.2) :=
        list_all_of_eq M (fun kv _ => by
          rw [canonicalArgs_dget_eq_spec hwf c hcov kv.1])
      simp [h1, h2, Nat.le_of_not_lt h1, hall]
    · simp [h1, h2]

theorem list_any_of_eq {α : Type} {p q : α → Bool} (l : List α)
    (h : ∀ a ∈ l, p a = q a) : l.any p = l.any q := by
  induction l with
  | nil => rfl
  | cons a l ih =>
    simp only [List.any_cons]
    rw [h a (List.mem_cons_self a l),
        ih (fun b hb => h b (List.mem_cons_of_mem a hb))]

/-!
Concrete scenario material, mirroring `kgb/tests/base.py` and
`kgb/tests/test_function_spy.py`: the spied method
`MathClass.do_math(self, a=1, b=2, *args, **kwargs)`, the method
`MathClass.do_math_mixed(self, a, b=2, *args, **kwargs)` and the substitute
`fake_do_math(self, a, b, *args, **kwargs)` returning `a - b`.
-/

/-- The signature of the bound method `MathClass.do_math`. -/
def do_math_sig : FunctionSig :=
  { funcType := FuncType.boundMethod
    argNames := ["self"]
    dParams := [("a", PyVal.int 1), ("b", PyVal.int 2)]
    kwOnlyParams := []
    hasVarArgs := true
    hasVarKwargs := true }

/-- The signature of the bound method `MathClass.do_math_mixed`. -/
def do_math_mixed_sig : FunctionSig :=
  { funcType := FuncType.boundMethod
    argNames := ["self", "a"]
    dParams := [("b", PyVal.int 2)]
    kwOnlyParams := []
    hasVarArgs := true
    hasVarKwargs := true }

/-- The signature of the substitute `fake_do_math`. -/
def fake_do_math_sig : FunctionSig :=
  { funcType := FuncType.function
    argNames := ["self", "a", "b"]
    dParams := []
    kwOnlyParams := []
    hasVarArgs := true
    hasVarKwargs := true }

/-- The substitute `fake_do_math(self, a, b, *args, **kwargs)` of the test
suite: bind its parameters and return `a - b`. -/
def fake_do_math : PyFunc := fun pos kw =>
  match bindPosParams pos kw fake_do_math_sig.posParams 0 with
  | some [_, PyVal.int a, PyVal.int b] => Except.ok (PyVal.int (a - b))
  | _ => Except.error (PyVal.str "TypeError")

/-- A spy on `MathClass.do_math` with `call_fake=fake_do_math`, fresh. -/
def do_math_spy : FunctionSpy :=
  { sig := do_math_sig
    func := some fake_do_math
    funcName := "do_math" }

/-- Projection of a dispatch outcome into comparable data: `true` with the
returned value, or `false` with the raised exception object. -/
def exceptProj : Except PyVal PyVal → Bool × PyVal
  | Except.ok v => (true, v)
  | Except.error e => (false, e)

/-!
Claim C1.
-/

/-- C1: on a well-formed signature, for every recorded call (one produced by
the interception pipeline), the call-level `called_with` is true exactly
under the spec's Algorithm 2 — the expected positionals are a prefix of the
actuals and every expected keyword pair occurs, with an equal value, in the
canonical map obtained by zipping the actual positionals against the
positional-or-keyword parameter names (receiver dropped for methods) and
overlaying the actual keywords — and the spy-level `called_with` is true
exactly when at least one recorded call satisfies that predicate. -/
theorem c1_called_with_matches_spec (sig : FunctionSig)
    (hwf : sig.funcType.isMethod = true → sig.argNames ≠ [])
    (spy : FunctionSpy) (hsig : spy.sig = sig)
    (hrec : ∀ c ∈ spy.calls, RecordedCall sig c)
    (E : List PyVal) (M : PyDict) :
    (∀ c ∈ spy.calls, c.called_with sig E M = specCalledWith c sig E M) ∧
    spy.called_with E M = spy.calls.any (fun c => specCalledWith c sig E M) := by
  have hcall : ∀ c ∈ spy.calls, c.called_with sig E M = specCalledWith c sig E M := by
    intro c hc
    obtain ⟨pos, kw, bc, hb, hargs, hkw⟩ := hrec c hc
    have hcov : ∀ n ∈ sig.dNames, (dget c.kwargs n).isSome := by
      rw [hkw]
      exact bindCall_kwargs_covered hb
    exact called_with_eq_spec hwf c hcov E M
  refine ⟨hcall, ?_⟩
  unfold FunctionSpy.called_with
  rw [hsig]
  exact list_any_of_eq spy.calls hcall

/-- A recorded call of `do_math_mixed_sig`, as produced by the call site
`obj.do_math_mixed(1, b=2)` of the test suite. -/
def mixed_recorded_call : SpyCall :=
  { args := [PyVal.int 1], kwargs := [("b", PyVal.int 2)] }

/-- A spy on `MathClass.do_math_mixed` holding one recorded call. -/
def mixed_spy : FunctionSpy :=
  { sig := do_math_mixed_sig
    func := Option.none
    calls := [mixed_recorded_call]
    called := true
    lastCall := some mixed_recorded_call
    funcName := "do_math_mixed" }

/-- Witness for C1 at a concrete spy, call and query. -/
theorem c1_called_with_matches_spec_witness :
    (∀ c ∈ mixed_spy.calls,
      c.called_with do_math_mixed_sig [PyVal.int 1] [("b", PyVal.int 2)]
        = specCalledWith c do_math_mixed_sig [PyVal.int 1] [("b", PyVal.int 2)]) ∧
    mixed_spy.called_with [PyVal.int 1] [("b", PyVal.int 2)]
      = mixed_spy.calls.any
          (fun c => specCalledWith c do_math_mixed_sig [PyVal.int 1]
            [("b", PyVal.int 2)]) :=
  c1_called_with_matches_spec do_math_mixed_sig (by decide) mixed_spy rfl
    (fun c hc => by
      have hcm : c = mixed_recorded_call := by
        simpa [mixed_spy] using hc
      subst hcm
      exact ⟨[PyVal.inst 0, PyVal.int 1], [("b", PyVal.int 2)],
        { fullArgs := [PyVal.inst 0, PyVal.int 1]
          kwargs := [("b", PyVal.int 2)] },
        by decide, by decide, by decide⟩)
    [PyVal.int 1] [("b", PyVal.int 2)]

/-!
Claim C2.
-/

/-- C2 counterexample: in the claim's own scenario —
`MathClass.do_math(self, a=1, b=2, *args, **kwargs)` spied on with the
substitute `fake_do_math` and invoked as `do_math(10, 20)` — the recorded
positional tuple is `()` rather than the literally supplied `(10, 20)`
(the values land in the keyword dict), and `called_with(10, 20)` is False,
contradicting the claim. -/
theorem c2_counterexample :
    (do_math_spy.invoke [PyVal.inst 0, PyVal.int 10, PyVal.int 20] []).map
        (fun r => (r.1.calls.map SpyCall.args,
                   r.1.called_with [PyVal.int 10, PyVal.int 20] []))
      = some ([[]], false) ∧
    ([[]] : List (List PyVal)) ≠ [[PyVal.int 10, PyVal.int 20]] :=
  ⟨rfl, by decide⟩

/-- C2 amended: the substitute is accepted as compatible; `do_math(10, 20)`
returns `-10`; the log then has exactly one entry, recorded with positional
values for defaulted parameters normalized to keyword form (`args=()`,
`kwargs={a: 10, b: 20}`, receiver stripped); `called_with(a=10, b=20)` is
True, while `called_with(10, 20)` is False. -/
theorem c2_amended_scenario :
    do_math_sig.is_compatible_with fake_do_math_sig = true ∧
    (do_math_spy.invoke [PyVal.inst 0, PyVal.int 10, PyVal.int 20] []).map
        (fun r => (exceptProj r.2,
                   r.1.calls.map (fun c => (c.args, c.kwargs)),
                   r.1.called_with [] [("a", PyVal.int 10), ("b", PyVal.int 20)],
                   r.1.called_with [PyVal.int 10, PyVal.int 20] []))
      = some ((true, PyVal.int (-10)),
              [([], [("a", PyVal.int 10), ("b", PyVal.int 20)])], true, false) :=
  ⟨rfl, rfl⟩

/-!
Claim C8.
-/

/-- C8: for every intercepted call, if the invoked implementation raises an
exception `e`, then exactly that exception object is stored on the new call
record and propagated to the caller; if it returns `v`, then `v` is stored
as the record's return value and returned to the caller. -/
theorem c8_result_recorded_and_propagated (spy : FunctionSpy) (f : PyFunc)
    (hf : spy.func = some f) (pos : List PyVal) (kw : PyDict) (bc : BoundCall)
    (hb : bindCall spy.sig pos kw = some bc) :
    (∀ e, f bc.fullArgs bc.kwargs = Except.error e →
      spy.invoke pos kw = some
        ({ spy with
             calls := spy.calls ++
               [{ spy.sig.mkSpyCall bc with exception := some e }]
             called := true
             lastCall := some { spy.sig.mkSpyCall bc with exception := some e } },
         Except.error e)) ∧
    (∀ v, f bc.fullArgs bc.kwargs = Except.ok v →
      spy.invoke pos kw = some
        ({ spy with
             calls := spy.calls ++
               [{ spy.sig.mkSpyCall bc with return_value := v }]
             called := true
             lastCall := some { spy.sig.mkSpyCall bc with return_value := v } },
         Except.ok v)) := by
  constructor
  · intro e he
    simp only [FunctionSpy.invoke, hb, hf, he]
  · intro v hv
    simp only [FunctionSpy.invoke, hb, hf, hv]

/-- A substitute that always raises the exception object `'oops'`. -/
def raising_func : PyFunc := fun _ _ => Except.error (PyVal.str "oops")

/-- A spy on `MathClass.do_math` whose substitute always raises. -/
def raising_spy : FunctionSpy :=
  { sig := do_math_sig
    func := some raising_func
    funcName := "do_math" }

/-- Witness for C8 on a raising and on a returning dispatch. -/
theorem c8_result_recorded_and_propagated_witness :
    (raising_spy.invoke [PyVal.inst 0] [] = some
      ({ raising_spy with
           calls := [{ do_math_sig.mkSpyCall
               { fullArgs := [PyVal.inst 0]
                 kwargs := [("a", PyVal.int 1), ("b", PyVal.int 2)] } with
             exception := some (PyVal.str "oops") }]
           called := true
           lastCall := some { do_math_sig.mkSpyCall
               { fullArgs := [PyVal.inst 0]
                 kwargs := [("a", PyVal.int 1), ("b", PyVal.int 2)] } with
             exception := some (PyVal.str "oops") } },
       Except.error (PyVal.str "oops"))) ∧
    (do_math_spy.invoke [PyVal.inst 0] [] = some
      ({ do_math_spy with
           calls := [{ do_math_sig.mkSpyCall
               { fullArgs := [PyVal.inst 0]
                 kwargs := [("a", PyVal.int 1), ("b", PyVal.int 2)] } with
             return_value := PyVal.int (-1) }]
           called := true
           lastCall := some { do_math_sig.mkSpyCall
               { fullArgs := [PyVal.inst 0]
                 kwargs := [("a", PyVal.int 1), ("b", PyVal.int 2)] } with
             return_value := PyVal.int (-1) } },
       Except.ok (PyVal.int (-1)))) :=
  ⟨(c8_result_recorded_and_propagated raising_spy raising_func rfl
      [PyVal.inst 0] []
      { fullArgs := [PyVal.inst 0]
        kwargs := [("a", PyVal.int 1), ("b", PyVal.int 2)] } rfl).1
    (PyVal.str "oops") rfl,
   (c8_result_recorded_and_propagated do_math_spy fake_do_math rfl
      [PyVal.inst 0] []
      { fullArgs := [PyVal.inst 0]
        kwargs := [("a", PyVal.int 1), ("b", PyVal.int 2)] } rfl).2
    (PyVal.int (-1)) rfl⟩

/-!
Claim C9.
-/

/-- C9: a call whose invocation raised, and a call dispatched in disabled
mode, keep the initial `None` in the record's return-value field, so
`returned(None)` — call-level, spy-level and `last_returned` — reports True
even though the call never returned normally; and `returned(v)` in general
is an equality comparison against that field. -/
theorem c9_returned_none_despite_no_return (spy : FunctionSpy)
    (pos : List PyVal) (kw : PyDict) (bc : BoundCall)
    (hb : bindCall spy.sig pos kw = some bc) :
    (∀ f e, spy.func = some f → f bc.fullArgs bc.kwargs = Except.error e →
      ∃ spy2, spy.invoke pos kw = some (spy2, Except.error e) ∧
        spy2.lastCall = some { spy.sig.mkSpyCall bc with exception := some e } ∧
        ({ spy.sig.mkSpyCall bc with exception := some e } : SpyCall).return_value
          = PyVal.none ∧
        spy2.last_returned PyVal.none = true ∧
        spy2.returned PyVal.none = true) ∧
    (spy.func = Option.none →
      ∃ spy2, spy.invoke pos kw = some (spy2, Except.ok PyVal.none) ∧
        spy2.lastCall = some (spy.sig.mkSpyCall bc) ∧
        (spy.sig.mkSpyCall bc).return_value = PyVal.none ∧
        spy2.last_returned PyVal.none = true ∧
        spy2.returned PyVal.none = true) ∧
    (∀ (c : SpyCall) (v : PyVal), c.returned v = (c.return_value == v)) := by
  refine ⟨?_, ?_, fun c v => rfl⟩
  · intro f e hf he
    refine ⟨{ spy with
                calls := spy.calls ++
                  [{ spy.sig.mkSpyCall bc with exception := some e }]
                called := true
                lastCall := some { spy.sig.mkSpyCall bc with
                  exception := some e } }, ?_, rfl, rfl, rfl, ?_⟩
    · simp only [FunctionSpy.invoke, hb, hf, he]
    · unfold FunctionSpy.returned
      simp [List.any_append, SpyCall.returned, FunctionSig.mkSpyCall]
  · intro hf
    refine ⟨{ spy with
                calls := spy.calls ++ [spy.sig.mkSpyCall bc]
                called := true
                lastCall := some (spy.sig.mkSpyCall bc) }, ?_, rfl, rfl, rfl, ?_⟩
    · simp only [FunctionSpy.invoke, hb, hf]
    · unfold FunctionSpy.returned
      simp [List.any_append, SpyCall.returned, FunctionSig.mkSpyCall]

/-- A spy on `MathClass.do_math` in disabled mode
(`call_original=False`, no fake). -/
def disabled_spy : FunctionSpy :=
  { sig := do_math_sig
    func := Option.none
    funcName := "do_math" }

/-- Witness for C9 on a raising spy and on a disabled spy. -/
theorem c9_returned_none_despite_no_return_witness :
    (∃ spy2, raising_spy.invoke [PyVal.inst 0] []
        = some (spy2, Except.error (PyVal.str "oops")) ∧
      spy2.lastCall = some { do_math_sig.mkSpyCall
          { fullArgs := [PyVal.inst 0]
            kwargs := [("a", PyVal.int 1), ("b", PyVal.int 2)] } with
        exception := some (PyVal.str "oops") } ∧
      ({ do_math_sig.mkSpyCall
          { fullArgs := [PyVal.inst 0]
            kwargs := [("a", PyVal.int 1), ("b", PyVal.int 2)] } with
        exception := some (PyVal.str "oops") } : SpyCall).return_value
        = PyVal.none ∧
      spy2.last_returned PyVal.none = true ∧
      spy2.returned PyVal.none = true) ∧
    (∃ spy2, disabled_spy.invoke [PyVal.inst 0] []
        = some (spy2, Except.ok PyVal.none) ∧
      spy2.lastCall = some (do_math_sig.mkSpyCall
          { fullArgs := [PyVal.inst 0]
            kwargs := [("a", PyVal.int 1), ("b", PyVal.int 2)] }) ∧
      (do_math_sig.mkSpyCall
          { fullArgs := [PyVal.inst 0]
            kwargs := [("a", PyVal.int 1), ("b", PyVal.int 2)] }).return_value
        = PyVal.none ∧
      spy2.last_returned PyVal.none = true ∧
      spy2.returned PyVal.none = true) :=
  ⟨(c9_returned_none_despite_no_return raising_spy [PyVal.inst 0] []
      { fullArgs := [PyVal.inst 0]
        kwargs := [("a", PyVal.int 1), ("b", PyVal.int 2)] } rfl).1
    raising_func (PyVal.str "oops") rfl rfl,
   (c9_returned_none_despite_no_return disabled_spy [PyVal.inst 0] []
      { fullArgs := [PyVal.inst 0]
        kwargs := [("a", PyVal.int 1), ("b", PyVal.int 2)] } rfl).2.1 rfl⟩

/-!
Claim C10.
-/

/-- C10: `reset_calls` empties the call list, clears the called flag and the
last call, and leaves every other piece of spy state (signature, dispatch
target, patched code, agency registration, name) unchanged; afterwards
`called` is False, `called_with` is False for every query and the log length
is 0 — so the log is not append-only over the spy's lifetime. -/
theorem c10_reset_calls_clears_log_only (spy : FunctionSpy) :
    spy.reset_calls.calls = [] ∧
    spy.reset_calls.called = false ∧
    spy.reset_calls.lastCall = Option.none ∧
    spy.reset_calls.sig = spy.sig ∧
    spy.reset_calls.func = spy.func ∧
    spy.reset_calls.funcName = spy.funcName ∧
    spy.reset_calls.registered = spy.registered ∧
    spy.reset_calls.patchedCode = spy.patchedCode ∧
    spy.reset_calls.calls.length = 0 ∧
    (∀ args kwargs, spy.reset_calls.called_with args kwargs = false) :=
  ⟨rfl, rfl, rfl, rfl, rfl, rfl, rfl, rfl, rfl, fun _ _ => rfl⟩

/-!
Claims C3, C4 and C5, about `SpyOpMatchInOrder`.
-/

/-- The signature of the plain function `do_math_pos(a, b)`. -/
def do_math_pos_sig : FunctionSig :=
  { funcType := FuncType.function
    argNames := ["a", "b"]
    dParams := []
    kwOnlyParams := []
    hasVarArgs := false
    hasVarKwargs := false }

/-- A `SpyOpMatchInOrder` on `do_math_pos` expecting one call with
positional arguments `(1,)`. -/
def one_expectation_op : SpyOpMatchInOrder :=
  { spyName := "do_math_pos"
    calls := [{ args := [PyVal.int 1] }] }

/-- C3 counterexample: dispatching the recorded call of `do_math_pos(1, 2)`
through a `MatchInOrder` whose expectation at the cursor is `args=(1,)` is
accepted — the extra positional argument raises no assertion — and a call
carrying a keyword argument beyond those expected is accepted as well,
contradicting the claimed exact-equality check. -/
theorem c3_counterexample :
    (bindCall do_math_pos_sig [PyVal.int 1, PyVal.int 2] []).map
        do_math_pos_sig.mkSpyCall
      = some { args := [PyVal.int 1, PyVal.int 2], kwargs := [] } ∧
    one_expectation_op.handle_call do_math_pos_sig
        { args := [PyVal.int 1, PyVal.int 2], kwargs := [] }
      = ({ one_expectation_op with next := 1 },
         OpOutcome.dispatched { args := [PyVal.int 1] }) ∧
    ({ spyName := "do_math_mixed"
       calls := [{ args := [PyVal.int 1] }] } :
        SpyOpMatchInOrder).handle_call do_math_mixed_sig mixed_recorded_call
      = ({ spyName := "do_math_mixed"
           calls := [{ args := [PyVal.int 1] }]
           next := 1 },
         OpOutcome.dispatched { args := [PyVal.int 1] }) :=
  ⟨rfl, rfl, rfl⟩

/-- C3 amended: for every dispatched call that finds an expectation at the
cursor, `MatchInOrder` validates it with the same non-strict `called_with`
consistency check used by the query layer — the expected positionals must be
a prefix of the actuals and the expected keywords a subset of the canonical
map — raising the assertion exactly when that check fails; superset calls
are accepted. -/
theorem c3_amended_validation_is_nonstrict (sig : FunctionSig)
    (op : SpyOpMatchInOrder) (c : SpyCall) (cfg : CallMatchConfig)
    (hcfg : op.calls[op.next]? = some cfg) :
    op.handle_call sig c =
      ({ op with next := op.next + 1 },
       if c.called_with sig cfg.args cfg.kwargs then OpOutcome.dispatched cfg
       else OpOutcome.assertionFailed) := by
  simp only [SpyOpMatchInOrder.handle_call, hcfg, validate_call]
  split <;> rfl

/-- Witness for the amended C3 at a concrete operation and call. -/
theorem c3_amended_validation_is_nonstrict_witness :
    one_expectation_op.handle_call do_math_pos_sig
        { args := [PyVal.int 1, PyVal.int 2], kwargs := [] }
      = ({ one_expectation_op with next := 1 },
         if ({ args := [PyVal.int 1, PyVal.int 2], kwargs := [] } :
              SpyCall).called_with do_math_pos_sig [PyVal.int 1] []
         then OpOutcome.dispatched { args := [PyVal.int 1] }
         else OpOutcome.assertionFailed) :=
  c3_amended_validation_is_nonstrict do_math_pos_sig one_expectation_op
    { args := [PyVal.int 1, PyVal.int 2], kwargs := [] }
    { args := [PyVal.int 1] } rfl

/-- C4 counterexample: a dispatched call that fails validation still
advances the cursor.  With one expectation `args=(1,)` and the mismatched
call `do_math_pos(9, 9)`, the assertion is raised and the cursor has moved
from 0 to 1. -/
theorem c4_counterexample :
    one_expectation_op.handle_call do_math_pos_sig
        { args := [PyVal.int 9, PyVal.int 9], kwargs := [] }
      = ({ one_expectation_op with next := 1 }, OpOutcome.assertionFailed) ∧
    (1 : Nat) ≠ one_expectation_op.next :=
  ⟨rfl, by decide⟩

/-- C4 amended: the cursor advances by exactly one whenever an expectation
exists at the cursor — whether or not the subsequent validation succeeds —
and is left unchanged on overflow; it is never reset, so it is monotonically
nondecreasing, and the expectation list itself never changes. -/
theorem c4_amended_cursor_advance (sig : FunctionSig)
    (op : SpyOpMatchInOrder) (c : SpyCall) :
    ((op.handle_call sig c).1.calls = op.calls) ∧
    ((op.handle_call sig c).1.spyName = op.spyName) ∧
    (op.next < op.calls.length →
      (op.handle_call sig c).1.next = op.next + 1) ∧
    (op.calls.length ≤ op.next →
      (op.handle_call sig c).1.next = op.next) ∧
    op.next ≤ (op.handle_call sig c).1.next := by
  cases hget : op.calls[op.next]? with
  | none =>
    have hlen : op.calls.length ≤ op.next := by
      by_contra hlt
      rw [List.getElem?_eq_getElem (Nat.lt_of_not_le hlt)] at hget
      cases hget
    simp [SpyOpMatchInOrder.handle_call, hget]
    omega
  | some cfg =>
    have hlt : op.next < op.calls.length := by
      obtain ⟨h, _⟩ := List.getElem?_eq_some.mp hget
      exact h
    simp only [SpyOpMatchInOrder.handle_call, hget]
    by_cases hv : validate_call sig c cfg <;> simp [hv] <;> omega

/-- Witness for the amended C4 at a concrete operation and call. -/
theorem c4_amended_cursor_advance_witness :
    ((one_expectation_op.handle_call do_math_pos_sig
        { args := [PyVal.int 9, PyVal.int 9], kwargs := [] }).1.calls
      = one_expectation_op.calls) ∧
    ((one_expectation_op.handle_call do_math_pos_sig
        { args := [PyVal.int 9, PyVal.int 9], kwargs := [] }).1.spyName
      = one_expectation_op.spyName) ∧
    (one_expectation_op.next < one_expectation_op.calls.length →
      (one_expectation_op.handle_call do_math_pos_sig
        { args := [PyVal.int 9, PyVal.int 9], kwargs := [] }).1.next
        = one_expectation_op.next + 1) ∧
    (one_expectation_op.calls.length ≤ one_expectation_op.next →
      (one_expectation_op.handle_call do_math_pos_sig
        { args := [PyVal.int 9, PyVal.int 9], kwargs := [] }).1.next
        = one_expectation_op.next) ∧
    one_expectation_op.next ≤
      (one_expectation_op.handle_call do_math_pos_sig
        { args := [PyVal.int 9, PyVal.int 9], kwargs := [] }).1.next :=
  c4_amended_cursor_advance do_math_pos_sig one_expectation_op
    { args := [PyVal.int 9, PyVal.int 9], kwargs := [] }

/-- Helper for C5: a run of calls, each matching the expectation at the
advancing cursor, dispatches each call and moves the cursor by the number of
calls, never touching the expectation list or the spy name. -/
theorem run_all_matched (sig : FunctionSig) (cs : List SpyCall) :
    ∀ op : SpyOpMatchInOrder,
      List.Forall₂ (fun c (cfg : CallMatchConfig) =>
          c.called_with sig cfg.args cfg.kwargs = true)
        cs (op.calls.drop op.next) →
      (op.run sig cs).1 = { op with next := op.next + cs.length } ∧
      (op.run sig cs).2 = (op.calls.drop op.next).map OpOutcome.dispatched := by
  induction cs with
  | nil =>
    intro op h
    have hd : op.calls.drop op.next = [] := List.forall₂_nil_left_iff.mp h
    refine ⟨?_, by simp [SpyOpMatchInOrder.run, hd]⟩
    show op = _
    simp
  | cons c cs ih =>
    intro op h
    cases hd : op.calls.drop op.next with
    | nil => rw [hd] at h; exact absurd h (by simp)
    | cons cfg rest =>
      rw [hd] at h
      obtain ⟨hmatch, hrest⟩ := List.forall₂_cons.mp h
      have hget : op.calls[op.next]? = some cfg := by
        have := List.getElem?_drop op.calls op.next 0
        rw [hd] at this
        simpa using this.symm
      have hdrop1 : op.calls.drop (op.next + 1) = rest := by
        have := List.drop_drop 1 op.next op.calls
        rw [hd] at this
        simpa using this.symm
      have hstep : op.handle_call sig c
          = ({ op with next := op.next + 1 }, OpOutcome.dispatched cfg) := by
        simp only [SpyOpMatchInOrder.handle_call, hget, validate_call, hmatch,
          if_true]
      have hih := ih { op with next := op.next + 1 } (by simpa [hdrop1] using hrest)
      refine ⟨?_, ?_⟩
      · show (SpyOpMatchInOrder.run _ sig (c :: cs)).1 = _
        rw [SpyOpMatchInOrder.run, hstep]
        rw [show (({ op with next := op.next + 1 }, OpOutcome.dispatched cfg) :
            SpyOpMatchInOrder × OpOutcome).1 = { op with next := op.next + 1 }
          from rfl]
        rw [hih.1]
        have : op.next + 1 + cs.length = op.next + (cs.length + 1) := by omega
        simp [this]
      · show (SpyOpMatchInOrder.run _ sig (c :: cs)).2 = _
        rw [SpyOpMatchInOrder.run, hstep]
        simp only []
        rw [hih.2, hdrop1]
        simp [hd]

/-- C5: with `N` expectations and `N` calls each matching its expectation in
order, every call is accepted (dispatched) and the cursor ends at `N`; a
further call is not dispatched but raises `UnexpectedCallError`, whose
message states that the spy was called `N + 1` time(s) while only `N`
call(s) were expected, and renders the offending call's positional and
keyword arguments; the overflow leaves the cursor at `N`. -/
theorem c5_overflow_error (sig : FunctionSig) (op : SpyOpMatchInOrder)
    (cs : List SpyCall) (h0 : op.next = 0)
    (hmatch : List.Forall₂ (fun c (cfg : CallMatchConfig) =>
        c.called_with sig cfg.args cfg.kwargs = true) cs op.calls)
    (c2 : SpyCall) :
    (op.run sig cs).2 = op.calls.map OpOutcome.dispatched ∧
    (op.run sig cs).1.next = op.calls.length ∧
    ((op.run sig cs).1.handle_call sig c2).2 =
      OpOutcome.unexpectedCall
        (op.spyName ++ " was called " ++ toString (op.calls.length + 1) ++
         " time(s), but only " ++ toString op.calls.length ++
         " call(s) were expected. Latest call: " ++ c2.pyRepr) ∧
    ((op.run sig cs).1.handle_call sig c2).1.next = op.calls.length := by
  have hdrop0 : op.calls.drop op.next = op.calls := by rw [h0]; rfl
  obtain ⟨hst, hout⟩ := run_all_matched sig cs op (by rw [hdrop0]; exact hmatch)
  have hlen : cs.length = op.calls.length := hmatch.length_eq
  have hnext : (op.run sig cs).1.next = op.calls.length := by
    rw [hst, h0]
    simpa using hlen
  have hcalls : (op.run sig cs).1.calls = op.calls := by rw [hst]
  have hname : (op.run sig cs).1.spyName = op.spyName := by rw [hst]
  have hget2 : op.calls[op.calls.length]? = Option.none :=
    List.getElem?_eq_none (Nat.le_refl _)
  refine ⟨by rw [hout, hdrop0], hnext, ?_, ?_⟩
  · simp only [SpyOpMatchInOrder.handle_call, hcalls, hnext, hget2,
      SpyOpMatchInOrder.unexpectedMsg, hname]
  · simp only [SpyOpMatchInOrder.handle_call, hcalls, hnext, hget2]

/-- A `SpyOpMatchInOrder` on `do_math_pos` with two expectations. -/
def two_expectation_op : SpyOpMatchInOrder :=
  { spyName := "do_math_pos"
    calls := [{ args := [PyVal.int 1, PyVal.int 2] },
              { args := [PyVal.int 3, PyVal.int 4] }] }

/-- Witness for C5 with two expectations, two matching calls and a third
overflowing call. -/
theorem c5_overflow_error_witness :
    (two_expectation_op.run do_math_pos_sig
        [{ args := [PyVal.int 1, PyVal.int 2], kwargs := [] },
         { args := [PyVal.int 3, PyVal.int 4], kwargs := [] }]).2
      = two_expectation_op.calls.map OpOutcome.dispatched ∧
    (two_expectation_op.run do_math_pos_sig
        [{ args := [PyVal.int 1, PyVal.int 2], kwargs := [] },
         { args := [PyVal.int 3, PyVal.int 4], kwargs := [] }]).1.next
      = two_expectation_op.calls.length ∧
    ((two_expectation_op.run do_math_pos_sig
        [{ args := [PyVal.int 1, PyVal.int 2], kwargs := [] },
         { args := [PyVal.int 3, PyVal.int 4], kwargs := [] }]).1.handle_call
            do_math_pos_sig
            { args := [PyVal.int 5, PyVal.int 6], kwargs := [] }).2 =
      OpOutcome.unexpectedCall
        (two_expectation_op.spyName ++ " was called " ++
         toString (two_expectation_op.calls.length + 1) ++
         " time(s), but only " ++ toString two_expectation_op.calls.length ++
         " call(s) were expected. Latest call: " ++
         SpyCall.pyRepr { args := [PyVal.int 5, PyVal.int 6], kwargs := [] }) ∧
    ((two_expectation_op.run do_math_pos_sig
        [{ args := [PyVal.int 1, PyVal.int 2], kwargs := [] },
         { args := [PyVal.int 3, PyVal.int 4], kwargs := [] }]).1.handle_call
            do_math_pos_sig
            { args := [PyVal.int 5, PyVal.int 6], kwargs := [] }).1.next
      = two_expectation_op.calls.length :=
  c5_overflow_error do_math_pos_sig two_expectation_op
    [{ args := [PyVal.int 1, PyVal.int 2], kwargs := [] },
     { args := [PyVal.int 3, PyVal.int 4], kwargs := [] }]
    rfl
    (List.forall₂_cons.mpr ⟨by decide,
      List.forall₂_cons.mpr ⟨by decide, List.Forall₂.nil⟩⟩)
    { args := [PyVal.int 5, PyVal.int 6], kwargs := [] }

/-!
Claims C6 and C7, about `BaseFunctionSig.is_compatible_with`.
-/

/-- C6: a candidate substitute carrying both variadic catch-alls is accepted
against any original; and a candidate that is missing a name the original
always supplies by keyword — the name is among the original's
`kwarg_names`, is not among the candidate's positional parameter names, and
the candidate has no variadic-keyword catch-all — is always rejected. -/
theorem c6_compatibility_catch_alls_and_missing_names :
    (∀ src other : FunctionSig, other.hasVarArgs = true →
      other.hasVarKwargs = true → src.is_compatible_with other = true) ∧
    (∀ (src other : FunctionSig) (n : String), n ∈ src.kwargNames →
      n ∉ other.allArgNames → other.hasVarKwargs = false →
      src.is_compatible_with other = false) := by
  constructor
  · intro src other h1 h2
    simp [FunctionSig.is_compatible_with, h1, h2]
  · intro src other n hn hmem hk
    have hall : src.kwargNames.all
        (fun a => other.allArgNames.contains a) = false :=
      List.all_eq_false.mpr ⟨n, hn, by simpa using hmem⟩
    unfold FunctionSig.is_compatible_with
    rw [hk]
    simp only [Bool.and_false, Bool.not_false, Bool.and_true,
      Bool.false_eq_true, if_false]
    split
    · rfl
    · split <;> (split <;> first | rfl | (rw [hall]; simp))

/-- A candidate lacking the original's defaulted names entirely. -/
def missing_names_sig : FunctionSig :=
  { funcType := FuncType.function
    argNames := ["x", "y"]
    dParams := []
    kwOnlyParams := []
    hasVarArgs := false
    hasVarKwargs := false }

/-- Witness for C6: the double catch-all substitute `fake_do_math` is
compatible with `do_math`, and a substitute missing the always-supplied
keyword name `a` is rejected. -/
theorem c6_compatibility_witness :
    do_math_sig.is_compatible_with fake_do_math_sig = true ∧
    do_math_sig.is_compatible_with missing_names_sig = false :=
  ⟨c6_compatibility_catch_alls_and_missing_names.1 do_math_sig
      fake_do_math_sig rfl rfl,
   c6_compatibility_catch_alls_and_missing_names.2 do_math_sig
      missing_names_sig "a" (by decide) (by decide) rfl⟩

/-- The original `def f(a)` of the C7 counterexample. -/
def c7_src_sig : FunctionSig :=
  { funcType := FuncType.function
    argNames := ["a"]
    dParams := []
    kwOnlyParams := []
    hasVarArgs := false
    hasVarKwargs := false }

/-- The candidate `def g(x, y, a=1)` of the C7 counterexample. -/
def c7_other_sig : FunctionSig :=
  { funcType := FuncType.function
    argNames := ["x", "y"]
    dParams := [("a", PyVal.int 1)]
    kwOnlyParams := []
    hasVarArgs := false
    hasVarKwargs := false }

/-- C7 counterexample: for original `f(a)` and candidate `g(x, y, a=1)` the
positional name counts differ (under the no-default count used by the code
and under the all-names count alike), the candidate has no
variadic-positional (nor variadic-keyword) and the counts are not in the
`n_o > n_c` case, so the claim requires the pair to be judged incompatible;
the code judges it compatible. -/
theorem c7_counterexample :
    c7_src_sig.argNames.length ≠ c7_other_sig.argNames.length ∧
    c7_src_sig.allArgNames.length ≠ c7_other_sig.allArgNames.length ∧
    c7_other_sig.hasVarArgs = false ∧
    c7_other_sig.hasVarKwargs = false ∧
    c7_src_sig.argNames.length < c7_other_sig.argNames.length ∧
    c7_src_sig.allArgNames.length < c7_other_sig.allArgNames.length ∧
    c7_src_sig.is_compatible_with c7_other_sig = true := by
  decide

/-- C7 amended: let `n_o`, `n_c` count the no-default positional names
(receiver dropped according to the original's binding mode), and suppose the
candidate does not carry both catch-alls.  When `n_o ≠ n_c`, the pair is
judged incompatible except when `n_o < n_c` and the original has a
variadic-positional or every original positional name is among the
candidate's defaulted/keyword-only names, or when `n_o > n_c` and the
candidate has a variadic-positional. -/
theorem c7_amended_count_rule (src other : FunctionSig)
    (sa ca : List String)
    (hsa : sa = if src.funcType.isMethod then src.argNames.tail
                else src.argNames)
    (hca : ca = if src.funcType.isMethod then other.argNames.tail
                else other.argNames)
    (hboth : (other.hasVarArgs && other.hasVarKwargs) = false)
    (hne : sa.length ≠ ca.length)
    (hexc : ¬((sa.length < ca.length ∧
                (src.hasVarArgs = true ∨
                 ∀ a ∈ sa, other.kwargNames.contains a = true)) ∨
              (sa.length > ca.length ∧ other.hasVarArgs = true))) :
    src.is_compatible_with other = false := by
  unfold FunctionSig.is_compatible_with
  rw [hboth, if_neg (by decide)]
  split
  · rfl
  · have hcond : ((sa.length != ca.length) &&
        ((decide (sa.length < ca.length) && !src.hasVarArgs &&
          !(sa.all (fun a => other.kwargNames.contains a))) ||
         (decide (sa.length > ca.length) && !other.hasVarArgs))) = true := by
      rcases Nat.lt_trichotomy sa.length ca.length with hlt | heq | hgt
      · have hnova : src.hasVarArgs = false := by
          by_contra hva
          exact hexc (Or.inl ⟨hlt, Or.inl (by
            cases h : src.hasVarArgs
            · exact absurd h hva
            · rfl)⟩)
        have hnall : sa.all (fun a => other.kwargNames.contains a) = false := by
          rcases h : sa.all (fun a => other.kwargNames.contains a) with _ | _
          · rfl
          · exact absurd (Or.inl ⟨hlt, Or.inr (by
              intro a ha
              exact List.all_eq_true.mp h a ha)⟩) hexc
        have h1 : (sa.length != ca.length) = true := by simp [hne]
        have h2 : decide (sa.length < ca.length) = true := by simp [hlt]
        rw [h1, h2, hnova, hnall]
        simp
      · exact absurd heq hne
      · have hnova : other.hasVarArgs = false := by
          by_contra hva
          exact hexc (Or.inr ⟨hgt, by
            cases h : other.hasVarArgs
            · exact absurd h hva
            · rfl⟩)
        have h1 : (sa.length != ca.length) = true := by simp [hne]
        have h2 : decide (sa.length > ca.length) = true := by simp [hgt]
        have h3 : decide (sa.length < ca.length) = false := by
          simp [Nat.lt_asymm hgt]
        rw [h1, h2, h3, hnova]
        simp
    rw [← hsa, ← hca] at *
    rw [if_pos hcond]

/-- The original `def f(a, b)` of the amended-C7 witness. -/
def c7w_src_sig : FunctionSig :=
  { funcType := FuncType.function
    argNames := ["a", "b"]
    dParams := []
    kwOnlyParams := []
    hasVarArgs := false
    hasVarKwargs := false }

/-- The candidate `def g(x)` of the amended-C7 witness. -/
def c7w_other_sig : FunctionSig :=
  { funcType := FuncType.function
    argNames := ["x"]
    dParams := []
    kwOnlyParams := []
    hasVarArgs := false
    hasVarKwargs := false }

/-- Witness for the amended C7: `f(a, b)` against `g(x)` — counts 2 and 1,
no catch-alls, no exception applies — is judged incompatible. -/
theorem c7_amended_count_rule_witness :
    c7w_src_sig.is_compatible_with c7w_other_sig = false :=
  c7_amended_count_rule c7w_src_sig c7w_other_sig ["a", "b"] ["x"]
    rfl rfl rfl (by decide) (by decide)

end Kgb
